import Mathlib

/-!
Verification development for the topodump TPQ-to-GeoTIFF converter.

The converter (src/main.rs) decodes a fixed-layout TPQ header from an
in-memory byte buffer, reads a row-major directory of 32-bit tile offsets
starting at absolute offset 1024, decodes each JPEG tile and pastes it
into a single RGBA collage, and finally georeferences the collage with a
UTM/NAD27 affine transform computed by a third-order Krueger series.

The byte-level part is embedded over `List Nat` byte buffers with an
explicit cursor position (the Rust code threads a `Cursor` through
`read_exact`-based helpers).  Machine `u32` values are `Nat` with
explicit `% 2 ^ 32` where overflow matters; `f64` header fields are kept
as their raw little-endian 64-bit patterns, since no claim interprets
them numerically at the byte level.  The floating-point projection code
is embedded over `ℝ`.  External collaborators (the JPEG codec, the GDAL
raster writer) are modelled at the interface boundary the specification
gives for them.
-/

namespace Topodump

/-! ### Errors and run outcomes -/

/-- Error kinds of the conversion.  `truncatedInput` corresponds to the
`UnexpectedEof` error produced by `read_exact` when the buffer ends before
a fixed-size field is fully read; `tileDecodeFailure` to a failed JPEG
decode; `tileSizeMismatch` and `georeferencingFailure` are named by the
specification's error-handling design. -/
inductive TpqError where
  | truncatedInput
  | tileDecodeFailure
  | tileSizeMismatch
  | georeferencingFailure
deriving DecidableEq

/-- How a run step can stop early: with an error value returned to the
caller (Rust `Err` propagated by `?`), or with a process panic (Rust
out-of-bounds slice indexing). -/
inductive Stop where
  | err (e : TpqError)
  | panicked
deriving DecidableEq

/-! ### Byte-level readers -/

/-- Little-endian value of a list of bytes (least significant byte first),
as computed by `u32::from_le_bytes` / `f64::from_le_bytes` on the raw
bits. -/
def leValue : List Nat → Nat
  | [] => 0
  | b :: rest => b + 256 * leValue rest

/-- The `len` bytes of `data` starting at `pos`. -/
def slice (data : List Nat) (pos len : Nat) : List Nat :=
  (data.drop pos).take len

/-- One fixed-width field read at cursor position `pos`: `read_exact` into
a `width`-byte buffer, then a pure decoding step `f`.  Fails with
`truncatedInput` when fewer than `width` bytes remain. -/
def readField {α : Type} (data : List Nat) (pos width : Nat) (f : List Nat → α) :
    Except TpqError (α × Nat) :=
  if pos + width ≤ data.length then
    .ok (f (slice data pos width), pos + width)
  else
    .error .truncatedInput

/-- Rust `read_tpq_u32`: four bytes, little endian. -/
def read_tpq_u32 (data : List Nat) (pos : Nat) : Except TpqError (Nat × Nat) :=
  readField data pos 4 leValue

/-- Rust `read_tpq_f64`: eight bytes; the value is kept as its raw
little-endian 64-bit pattern. -/
def read_tpq_f64 (data : List Nat) (pos : Nat) : Except TpqError (Nat × Nat) :=
  readField data pos 8 leValue

/-- Rust `Cursor::read_until(0, ...)` over a byte list: the consumed
bytes, including the first zero byte when one is present. -/
def read_until_zero : List Nat → List Nat
  | [] => []
  | b :: rest => if b = 0 then [0] else b :: read_until_zero rest

/-- The pure part of `read_tpq_string` after the `size` field bytes have
been read: the field is placed in a `size + 1` buffer whose final byte
stays zero, `read_until` scans to the first zero, and the result keeps
`min (chars_read - 1) size` of the scanned bytes.  The result is the byte
sequence handed to the (external) lossy UTF-8 conversion. -/
def scan_tpq_string (field : List Nat) (size : Nat) : List Nat :=
  let chars := read_until_zero (field ++ [0])
  chars.take (min (chars.length - 1) size)

/-- Rust `read_tpq_string`: read `size` bytes, then truncate at the first
zero byte. -/
def read_tpq_string (data : List Nat) (pos size : Nat) :
    Except TpqError (List Nat × Nat) :=
  readField data pos size (fun field => scan_tpq_string field size)

/-! ### The TPQ header -/

/-- Decoded TPQ header.  The four `f64` bounding-box fields are raw
little-endian bit patterns; the text fields are the byte sequences before
lossy UTF-8 conversion. -/
structure TpqHeader where
  version : Nat
  w_long : Nat
  n_lat : Nat
  e_long : Nat
  s_lat : Nat
  topo : List Nat
  quad_name : List Nat
  state_name : List Nat
  source : List Nat
  year1 : List Nat
  year2 : List Nat
  contour : List Nat
  extension : List Nat
  color_depth : Nat
  long_count : Nat
  lat_count : Nat
  maplet_width : Nat
  maplet_height : Nat
deriving DecidableEq

/-- Rust `read_tpq_header`: the fixed field sequence, in source order.
The lone discarded `read_tpq_u32` between `color_depth` and `long_count`
is the reserved 32-bit field the source skips inside the `long_count`
initializer block. -/
def read_tpq_header (data : List Nat) (pos : Nat) :
    Except TpqError (TpqHeader × Nat) := do
  let (version, p) ← read_tpq_u32 data pos
  let (w_long, p) ← read_tpq_f64 data p
  let (n_lat, p) ← read_tpq_f64 data p
  let (e_long, p) ← read_tpq_f64 data p
  let (s_lat, p) ← read_tpq_f64 data p
  let (topo, p) ← read_tpq_string data p 220
  let (quad_name, p) ← read_tpq_string data p 128
  let (state_name, p) ← read_tpq_string data p 32
  let (source, p) ← read_tpq_string data p 32
  let (year1, p) ← read_tpq_string data p 4
  let (year2, p) ← read_tpq_string data p 4
  let (contour, p) ← read_tpq_string data p 24
  let (extension, p) ← read_tpq_string data p 4
  let (color_depth, p) ← read_tpq_u32 data p
  let (_, p) ← read_tpq_u32 data p
  let (long_count, p) ← read_tpq_u32 data p
  let (lat_count, p) ← read_tpq_u32 data p
  let (maplet_width, p) ← read_tpq_u32 data p
  let (maplet_height, p) ← read_tpq_u32 data p
  return ({ version := version, w_long := w_long, n_lat := n_lat,
            e_long := e_long, s_lat := s_lat, topo := topo,
            quad_name := quad_name, state_name := state_name,
            source := source, year1 := year1, year2 := year2,
            contour := contour, extension := extension,
            color_depth := color_depth, long_count := long_count,
            lat_count := lat_count, maplet_width := maplet_width,
            maplet_height := maplet_height }, p)

/-- The header value read from `data` at `pos`, written directly in terms
of the absolute byte ranges of each field.  The reserved field occupies
bytes `[pos + 488, pos + 492)` and appears in no field. -/
def headerAt (data : List Nat) (pos : Nat) : TpqHeader where
  version := leValue (slice data pos 4)
  w_long := leValue (slice data (pos + 4) 8)
  n_lat := leValue (slice data (pos + 12) 8)
  e_long := leValue (slice data (pos + 20) 8)
  s_lat := leValue (slice data (pos + 28) 8)
  topo := scan_tpq_string (slice data (pos + 36) 220) 220
  quad_name := scan_tpq_string (slice data (pos + 256) 128) 128
  state_name := scan_tpq_string (slice data (pos + 384) 32) 32
  source := scan_tpq_string (slice data (pos + 416) 32) 32
  year1 := scan_tpq_string (slice data (pos + 448) 4) 4
  year2 := scan_tpq_string (slice data (pos + 452) 4) 4
  contour := scan_tpq_string (slice data (pos + 456) 24) 24
  extension := scan_tpq_string (slice data (pos + 480) 4) 4
  color_depth := leValue (slice data (pos + 484) 4)
  long_count := leValue (slice data (pos + 492) 4)
  lat_count := leValue (slice data (pos + 496) 4)
  maplet_width := leValue (slice data (pos + 500) 4)
  maplet_height := leValue (slice data (pos + 504) 4)

/-! ### Images, tiles and the collage -/

/-- An RGBA pixel, as four channel values. -/
abbrev Pixel := Nat × Nat × Nat × Nat

/-- A pixel buffer with its dimensions.  Only positions inside the
dimensions are observable. -/
structure Image where
  width : Nat
  height : Nat
  pix : Nat → Nat → Pixel

/-- Rust `RgbaImage::from_pixel`: a `w × h` buffer filled with one
pixel. -/
def RgbaImage.from_pixel (w h : Nat) (p : Pixel) : Image where
  width := w
  height := h
  pix := fun _ _ => p

/-- The opaque-white background pixel `Rgba([255, 255, 255, 255])`. -/
def opaqueWhite : Pixel := (255, 255, 255, 255)

/-- Modelled from the spec: `imageops::overlay` of the external image
library, at the boundary the specification gives it (section 4.3): source
pixels replace destination pixels inside the pasted rectangle, and the
destination's dimensions are unchanged.  (The library clips drawing to
the destination, so positions outside the destination's dimensions are
unobservable; decoded JPEG tiles are fully opaque, for which the
library's alpha blend is exactly replacement.) -/
def overlay (dst src : Image) (x y : Nat) : Image where
  width := dst.width
  height := dst.height
  pix := fun i j =>
    if x ≤ i ∧ i < x + src.width ∧ y ≤ j ∧ j < y + src.height then
      src.pix (i - x) (j - y)
    else
      dst.pix i j

/-- The `u32` modulus: Rust `u32` arithmetic in the collage dimension and
position computations wraps modulo `2 ^ 32` (release-profile overflow
semantics). -/
def U32 : Nat := 2 ^ 32

/-- The imaging effect of main's tile loop, with `tiles k` the decoded
maplet at directory position `k`: allocate the opaque-white collage of
`long_count * maplet_width` by `lat_count * maplet_height` pixels, then
overlay tile `i * long_count + j` at
`(j * maplet_width, i * maplet_height)` in row-major order. -/
def assemble (lat_count long_count maplet_width maplet_height : Nat)
    (tiles : Nat → Image) : Image :=
  (List.range lat_count).foldl
    (fun collage i =>
      (List.range long_count).foldl
        (fun collage j =>
          overlay collage (tiles (i * long_count + j))
            (j * maplet_width % U32) (i * maplet_height % U32))
        collage)
    (RgbaImage.from_pixel (long_count * maplet_width % U32)
      (lat_count * maplet_height % U32) opaqueWhite)

/-! ### The effectful tile loop -/

/-- Modelled from the spec: the external JPEG codec boundary
(section 6): given the byte slice starting at a tile offset, it decodes
one image or fails. -/
def JpegDecoder : Type := List Nat → Option Image

/-- Lift a propagated `Err` (Rust `?`) into a run outcome. -/
def liftStop {α : Type} (x : Except TpqError α) : Except Stop α :=
  x.mapError Stop.err

/-- Rust `&tpq_data[maplet_offset..]`: the slice from `maplet_offset` to
the end.  Slice indexing with a start beyond the buffer length does not
return an error value: it panics. -/
def sliceFrom (data : List Nat) (off : Nat) : Except Stop (List Nat) :=
  if off ≤ data.length then .ok (data.drop off) else .error .panicked

/-- Running the external decoder: a failed decode is the fatal
`tileDecodeFailure` error (`ImageReader::decode()?`). -/
def decodeJpeg (dec : JpegDecoder) (bytes : List Nat) : Except Stop Image :=
  match dec bytes with
  | some img => .ok img
  | none => .error (.err .tileDecodeFailure)

/-- One iteration of main's tile loop at grid position `(i, j)`, from a
state of cursor position and collage: read the next directory offset,
slice the input there, decode, and overlay the decoded tile at
`(j * maplet_width, i * maplet_height)`. -/
def tileStep (data : List Nat) (dec : JpegDecoder) (mw mh : Nat) (i j : Nat)
    (st : Nat × Image) : Except Stop (Nat × Image) := do
  let (maplet_offset, pos) ← liftStop (read_tpq_u32 data st.1)
  let bytes ← sliceFrom data maplet_offset
  let img ← decodeJpeg dec bytes
  return (pos, overlay st.2 img (j * mw % U32) (i * mh % U32))

/-- Main's nested tile loop (`for i in 0..lat_count { for j in
0..long_count { ... } }`), threading the directory cursor and the
collage. -/
def tileLoop (data : List Nat) (dec : JpegDecoder)
    (lat_count long_count mw mh : Nat) (pos : Nat) (collage : Image) :
    Except Stop (Nat × Image) :=
  (List.range lat_count).foldlM
    (fun st i =>
      (List.range long_count).foldlM
        (fun st j => tileStep data dec mw mh i j st) st)
    (pos, collage)

/-- Main's conversion pipeline up to the finished collage: decode the
header from offset 0, then run the tile loop with the cursor repositioned
to the fixed directory offset 1024, over the opaque-white collage of the
header's declared dimensions. -/
def runConversion (data : List Nat) (dec : JpegDecoder) :
    Except Stop Image :=
  match read_tpq_header data 0 with
  | .error e => .error (.err e)
  | .ok (header, _) =>
      (tileLoop data dec header.lat_count header.long_count
          header.maplet_width header.maplet_height 1024
          (RgbaImage.from_pixel (header.long_count * header.maplet_width % U32)
            (header.lat_count * header.maplet_height % U32) opaqueWhite)).map
        (fun st => st.2)

/-- The collage pixel of a loop outcome, when the loop succeeded. -/
def resultPix (r : Except Stop (Nat × Image)) (x y : Nat) : Option Pixel :=
  match r with
  | .ok st => some (st.2.pix x y)
  | _ => none

/-- Whether a loop outcome is an error value returned to the caller. -/
def isErrResult (r : Except Stop (Nat × Image)) : Bool :=
  match r with
  | .error (.err _) => true
  | _ => false

/-! ### The output-writing tail of main -/

/-- Which step of main's tail failed first, if any.  The four steps are
`collage_img.save`, `gdal::Dataset::open_ex`, `set_spatial_ref` and
`set_geo_transform`, in source order. -/
inductive TailResult where
  | success
  | saveFailed
  | openFailed
  | spatialRefFailed
  | geoTransformFailed
deriving DecidableEq

/-- Modelled from the spec: outcomes of the external raster-writer calls
(section 6), as oracle booleans: whether each of the four tail steps
would succeed. -/
structure WriterEnv where
  save_ok : Bool
  open_ok : Bool
  set_spatial_ref_ok : Bool
  set_geo_transform_ok : Bool

/-- Result of running main's tail: which step failed first (each failure
is propagated to the caller by `?`), whether the output raster file
exists afterwards, and whether a removal of it was ever attempted. -/
structure TailOutcome where
  result : TailResult
  fileExists : Bool
  removalAttempted : Bool
deriving DecidableEq

/-- Main's tail (source lines 162-188): save the collage to the output
file, open it, write the spatial reference, write the geo transform.
Every failure is surfaced with `?`; the source contains no file-removal
call, so a failure after the save leaves the written file in place. -/
def mainTail (env : WriterEnv) : TailOutcome :=
  if env.save_ok = false then
    { result := .saveFailed, fileExists := false, removalAttempted := false }
  else if env.open_ok = false then
    { result := .openFailed, fileExists := true, removalAttempted := false }
  else if env.set_spatial_ref_ok = false then
    { result := .spatialRefFailed, fileExists := true, removalAttempted := false }
  else if env.set_geo_transform_ok = false then
    { result := .geoTransformFailed, fileExists := true, removalAttempted := false }
  else
    { result := .success, fileExists := true, removalAttempted := false }

/-- A concrete malformed input: a complete 1024-byte header region
declaring a 1-by-1 grid of 1-by-1 maplets, followed by one directory
entry recording maplet offset 2000 — beyond the input's 1028 bytes. -/
def c1Data : List Nat :=
  List.replicate 492 0 ++ [1, 0, 0, 0] ++ [1, 0, 0, 0] ++ [1, 0, 0, 0] ++
    [1, 0, 0, 0] ++ List.replicate 516 0 ++ [208, 7, 0, 0]

/-- A concrete decoded tile of dimensions 2 by 2, used against a header
declaring 1-by-1 maplets. -/
def c2Tile : Image where
  width := 2
  height := 2
  pix := fun _ _ => (7, 7, 7, 255)

/-- A concrete family of 1-by-1 tiles whose single pixel records the
directory position. -/
def c7Tiles : Nat → Image := fun k =>
  { width := 1, height := 1, pix := fun _ _ => (k, 0, 0, 255) }

/-! ### The geodetic projector over the reals -/

noncomputable section

open Real

/-- Rust `f64::to_radians`. -/
def toRadians (x : ℝ) : ℝ := x * π / 180

/-- Rust `f64::atanh`, the inverse hyperbolic tangent
`(1/2) ln ((1+x)/(1-x))`. -/
def artanh (x : ℝ) : ℝ := Real.log ((1 + x) / (1 - x)) / 2

/-- Rust `expr as u32` on an `f64`: truncate toward zero and saturate to
the `u32` range (negative values become 0). -/
def f64_as_u32 (x : ℝ) : Nat :=
  if x < 0 then 0 else min (Int.toNat ⌊x⌋) (2 ^ 32 - 1)

/-- NAD27 semi-major axis, meters. -/
def semimajor_axis : ℝ := 6378206.4

/-- NAD27 flattening. -/
def flattening : ℝ := 1.0 / 294.978698214

/-- Third flattening `n = f / (2 - f)`. -/
def n : ℝ := flattening / (2 - flattening)

/-- Meridian-arc scale `A`. -/
def A : ℝ := semimajor_axis / (1 + n) * (1 + n ^ 2 / 4 + n ^ 4 / 64)

/-- First Krueger series coefficient. -/
def alpha_1 : ℝ := 1 / 2 * n - 2 / 3 * n ^ 2 + 5 / 16 * n ^ 3

/-- Second Krueger series coefficient. -/
def alpha_2 : ℝ := 13 / 48 * n ^ 2 - 3 / 5 * n ^ 3

/-- Third Krueger series coefficient. -/
def alpha_3 : ℝ := 61 / 240 * n ^ 3

/-- Source line 98: `let zone = ((long + 186.0) / 6.0) as u32`. -/
def utm_zone (long : ℝ) : Nat := f64_as_u32 ((long + 186.0) / 6.0)

/-- The central meridian in degrees, the argument of `to_radians` on
source line 99: `-183.0 + zone as f64 * 6.0`. -/
def center_meridian_deg (long : ℝ) : ℝ := -183.0 + (utm_zone long : ℝ) * 6.0

/-- Source line 99: the central meridian in radians. -/
def center_meridian_rad (long : ℝ) : ℝ := toRadians (center_meridian_deg long)

/-- Source line 104: the conformal-latitude auxiliary
`t = sinh(atanh(sin lat_rad) - (2 sqrt n / (1+n)) atanh((2 sqrt n / (1+n)) sin lat_rad))`.
Note the first inner term is the inverse hyperbolic tangent of
`sin lat_rad`. -/
def t_aux (lat_rad : ℝ) : ℝ :=
  Real.sinh (artanh (Real.sin lat_rad) -
    2 * Real.sqrt n / (1 + n) * artanh (2 * Real.sqrt n / (1 + n) * Real.sin lat_rad))

/-- Source line 105: `xi_prime = atan(t / cos(long_rad - meridian_rad))`. -/
def xi_prime (lat long : ℝ) : ℝ :=
  Real.arctan (t_aux (toRadians lat) /
    Real.cos (toRadians long - center_meridian_rad long))

/-- Source line 106:
`eta_prime = atanh(sin(long_rad - meridian_rad) / sqrt(1 + t^2))`. -/
def eta_prime (lat long : ℝ) : ℝ :=
  artanh (Real.sin (toRadians long - center_meridian_rad long) /
    Real.sqrt (1 + t_aux (toRadians lat) ^ 2))

/-- Source lines 118-122: the UTM easting with 500 km false easting. -/
def utm_easting (lat long : ℝ) : ℝ :=
  500000.0 + 0.9996 * A * (eta_prime lat long +
    (alpha_1 * Real.cos (2 * 1 * xi_prime lat long) * Real.sinh (2 * 1 * eta_prime lat long) +
     alpha_2 * Real.cos (2 * 2 * xi_prime lat long) * Real.sinh (2 * 2 * eta_prime lat long) +
     alpha_3 * Real.cos (2 * 3 * xi_prime lat long) * Real.sinh (2 * 3 * eta_prime lat long)))

/-- Source lines 123-127: the UTM northing, with no false northing. -/
def utm_northing (lat long : ℝ) : ℝ :=
  0.0 + 0.9996 * A * (xi_prime lat long +
    (alpha_1 * Real.sin (2 * 1 * xi_prime lat long) * Real.cosh (2 * 1 * eta_prime lat long) +
     alpha_2 * Real.sin (2 * 2 * xi_prime lat long) * Real.cosh (2 * 2 * eta_prime lat long) +
     alpha_3 * Real.sin (2 * 3 * xi_prime lat long) * Real.cosh (2 * 3 * eta_prime lat long)))

/-- Rust `lat_long_to_utm_nad27`: `(northing, easting, zone)`. -/
def lat_long_to_utm_nad27 (lat long : ℝ) : ℝ × ℝ × Nat :=
  (utm_northing lat long, utm_easting lat long, utm_zone long)

/-! ### The georeferencer (main's tail, lines 165-186) -/

/-- Projected northing of the header's northwest corner. -/
def top_northing (n_lat w_long : ℝ) : ℝ := (lat_long_to_utm_nad27 n_lat w_long).1

/-- Projected easting of the header's northwest corner. -/
def left_easting (n_lat w_long : ℝ) : ℝ := (lat_long_to_utm_nad27 n_lat w_long).2.1

/-- Projected northing of the header's southeast corner. -/
def bottom_northing (s_lat e_long : ℝ) : ℝ := (lat_long_to_utm_nad27 s_lat e_long).1

/-- Projected easting of the header's southeast corner. -/
def right_easting (s_lat e_long : ℝ) : ℝ := (lat_long_to_utm_nad27 s_lat e_long).2.1

/-- Source line 168: pixel width of the affine transform. -/
def x_scale (n_lat w_long s_lat e_long : ℝ) (width : Nat) : ℝ :=
  (right_easting s_lat e_long - left_easting n_lat w_long) / (width : ℝ)

/-- Source line 169: pixel height of the affine transform. -/
def y_scale (n_lat w_long s_lat e_long : ℝ) (height : Nat) : ℝ :=
  -(top_northing n_lat w_long - bottom_northing s_lat e_long) / (height : ℝ)

/-- Source line 178: the EPSG code handed to the raster writer,
`26700 + zone` with the zone of the northwest-corner projection. -/
def epsg_code (n_lat w_long : ℝ) : Nat :=
  26700 + (lat_long_to_utm_nad27 n_lat w_long).2.2

/-- Source lines 179-186: the six affine coefficients, in GDAL order
(origin x, pixel width, row rotation, origin y, column rotation, pixel
height). -/
def geo_transform (n_lat w_long s_lat e_long : ℝ) (width height : Nat) : List ℝ :=
  [left_easting n_lat w_long + x_scale n_lat w_long s_lat e_long width / 2,
   x_scale n_lat w_long s_lat e_long width,
   0.0,
   top_northing n_lat w_long + y_scale n_lat w_long s_lat e_long height / 2,
   0.0,
   y_scale n_lat w_long s_lat e_long height]

/-- The conformal-latitude auxiliary exactly as the specification's step
6 words it: the first inner term is the inverse hyperbolic SINE of
`sin lat_rad`. -/
def t_aux_spec_asinh (lat_rad : ℝ) : ℝ :=
  Real.sinh (Real.arsinh (Real.sin lat_rad) -
    2 * Real.sqrt n / (1 + n) * artanh (2 * Real.sqrt n / (1 + n) * Real.sin lat_rad))

/-- The conformal-latitude auxiliary as the amended specification words
it: the first inner term is the inverse hyperbolic TANGENT of
`sin lat_rad`. -/
def t_aux_spec_atanh (lat_rad : ℝ) : ℝ :=
  Real.sinh (artanh (Real.sin lat_rad) -
    2 * Real.sqrt n / (1 + n) * artanh (2 * Real.sqrt n / (1 + n) * Real.sin lat_rad))

end

/-! ### Basic reader lemmas -/

theorem ok_bind {ε α β : Type} (a : α) (f : α → Except ε β) :
    (Except.ok a : Except ε α) >>= f = f a := rfl

theorem error_bind {ε α β : Type} (e : ε) (f : α → Except ε β) :
    (Except.error e : Except ε α) >>= f = (.error e : Except ε β) := rfl

theorem readField_pos {α : Type} (data : List Nat) (pos width : Nat)
    (f : List Nat → α) (h : pos + width ≤ data.length) :
    readField data pos width f = .ok (f (slice data pos width), pos + width) := by
  simp [readField, h]

theorem readField_neg {α : Type} (data : List Nat) (pos width : Nat)
    (f : List Nat → α) (h : data.length < pos + width) :
    readField data pos width f = .error .truncatedInput := by
  simp [readField]
  omega

/-- Successful header decode, in closed form: with at least 508 bytes
available from `pos`, the decoder returns `headerAt data pos` and leaves
the cursor at `pos + 508`. -/
theorem read_tpq_header_ok (data : List Nat) (pos : Nat)
    (h : pos + 508 ≤ data.length) :
    read_tpq_header data pos = .ok (headerAt data pos, pos + 508) := by
  rw [read_tpq_header]
  simp only [read_tpq_u32, read_tpq_f64, read_tpq_string]
  rw [readField_pos data (pos) 4 leValue (by omega)]
  simp only [ok_bind]
  rw [readField_pos data (pos + 4) 8 leValue (by omega)]
  simp only [ok_bind]
  rw [readField_pos data (pos + 4 + 8) 8 leValue (by omega)]
  simp only [ok_bind]
  rw [readField_pos data (pos + 4 + 8 + 8) 8 leValue (by omega)]
  simp only [ok_bind]
  rw [readField_pos data (pos + 4 + 8 + 8 + 8) 8 leValue (by omega)]
  simp only [ok_bind]
  rw [readField_pos data (pos + 4 + 8 + 8 + 8 + 8) 220 _ (by omega)]
  simp only [ok_bind]
  rw [readField_pos data (pos + 4 + 8 + 8 + 8 + 8 + 220) 128 _ (by omega)]
  simp only [ok_bind]
  rw [readField_pos data (pos + 4 + 8 + 8 + 8 + 8 + 220 + 128) 32 _ (by omega)]
  simp only [ok_bind]
  rw [readField_pos data (pos + 4 + 8 + 8 + 8 + 8 + 220 + 128 + 32) 32 _ (by omega)]
  simp only [ok_bind]
  rw [readField_pos data (pos + 4 + 8 + 8 + 8 + 8 + 220 + 128 + 32 + 32) 4 _ (by omega)]
  simp only [ok_bind]
  rw [readField_pos data (pos + 4 + 8 + 8 + 8 + 8 + 220 + 128 + 32 + 32 + 4) 4 _ (by omega)]
  simp only [ok_bind]
  rw [readField_pos data (pos + 4 + 8 + 8 + 8 + 8 + 220 + 128 + 32 + 32 + 4 + 4) 24 _ (by omega)]
  simp only [ok_bind]
  rw [readField_pos data (pos + 4 + 8 + 8 + 8 + 8 + 220 + 128 + 32 + 32 + 4 + 4 + 24) 4 _ (by omega)]
  simp only [ok_bind]
  rw [readField_pos data (pos + 4 + 8 + 8 + 8 + 8 + 220 + 128 + 32 + 32 + 4 + 4 + 24 + 4) 4 leValue (by omega)]
  simp only [ok_bind]
  rw [readField_pos data (pos + 4 + 8 + 8 + 8 + 8 + 220 + 128 + 32 + 32 + 4 + 4 + 24 + 4 + 4) 4 leValue (by omega)]
  simp only [ok_bind]
  rw [readField_pos data (pos + 4 + 8 + 8 + 8 + 8 + 220 + 128 + 32 + 32 + 4 + 4 + 24 + 4 + 4 + 4) 4 leValue (by omega)]
  simp only [ok_bind]
  rw [readField_pos data (pos + 4 + 8 + 8 + 8 + 8 + 220 + 128 + 32 + 32 + 4 + 4 + 24 + 4 + 4 + 4 + 4) 4 leValue (by omega)]
  simp only [ok_bind]
  rw [readField_pos data (pos + 4 + 8 + 8 + 8 + 8 + 220 + 128 + 32 + 32 + 4 + 4 + 24 + 4 + 4 + 4 + 4 + 4) 4 leValue (by omega)]
  simp only [ok_bind]
  rw [readField_pos data (pos + 4 + 8 + 8 + 8 + 8 + 220 + 128 + 32 + 32 + 4 + 4 + 24 + 4 + 4 + 4 + 4 + 4 + 4) 4 leValue (by omega)]
  simp only [ok_bind]
  show Except.ok _ = _
  norm_num [headerAt]

/-- Failing header decode: with fewer than 508 bytes available from
`pos`, the decoder returns the `truncatedInput` error. -/
theorem read_tpq_header_short (data : List Nat) (pos : Nat)
    (h : data.length < pos + 508) :
    read_tpq_header data pos = .error .truncatedInput := by
  rw [read_tpq_header]
  simp only [read_tpq_u32, read_tpq_f64, read_tpq_string]
  by_cases hh1 : pos + 4 ≤ data.length
  case neg =>
    rw [readField_neg data (pos) 4 leValue (by omega), error_bind]
  case pos =>
  rw [readField_pos data (pos) 4 leValue hh1]
  simp only [ok_bind]
  by_cases hh2 : pos + 4 + 8 ≤ data.length
  case neg =>
    rw [readField_neg data (pos + 4) 8 leValue (by omega), error_bind]
  case pos =>
  rw [readField_pos data (pos + 4) 8 leValue hh2]
  simp only [ok_bind]
  by_cases hh3 : pos + 4 + 8 + 8 ≤ data.length
  case neg =>
    rw [readField_neg data (pos + 4 + 8) 8 leValue (by omega), error_bind]
  case pos =>
  rw [readField_pos data (pos + 4 + 8) 8 leValue hh3]
  simp only [ok_bind]
  by_cases hh4 : pos + 4 + 8 + 8 + 8 ≤ data.length
  case neg =>
    rw [readField_neg data (pos + 4 + 8 + 8) 8 leValue (by omega), error_bind]
  case pos =>
  rw [readField_pos data (pos + 4 + 8 + 8) 8 leValue hh4]
  simp only [ok_bind]
  by_cases hh5 : pos + 4 + 8 + 8 + 8 + 8 ≤ data.length
  case neg =>
    rw [readField_neg data (pos + 4 + 8 + 8 + 8) 8 leValue (by omega), error_bind]
  case pos =>
  rw [readField_pos data (pos + 4 + 8 + 8 + 8) 8 leValue hh5]
  simp only [ok_bind]
  by_cases hh6 : pos + 4 + 8 + 8 + 8 + 8 + 220 ≤ data.length
  case neg =>
    rw [readField_neg data (pos + 4 + 8 + 8 + 8 + 8) 220 _ (by omega), error_bind]
  case pos =>
  rw [readField_pos data (pos + 4 + 8 + 8 + 8 + 8) 220 _ hh6]
  simp only [ok_bind]
  by_cases hh7 : pos + 4 + 8 + 8 + 8 + 8 + 220 + 128 ≤ data.length
  case neg =>
    rw [readField_neg data (pos + 4 + 8 + 8 + 8 + 8 + 220) 128 _ (by omega), error_bind]
  case pos =>
  rw [readField_pos data (pos + 4 + 8 + 8 + 8 + 8 + 220) 128 _ hh7]
  simp only [ok_bind]
  by_cases hh8 : pos + 4 + 8 + 8 + 8 + 8 + 220 + 128 + 32 ≤ data.length
  case neg =>
    rw [readField_neg data (pos + 4 + 8 + 8 + 8 + 8 + 220 + 128) 32 _ (by omega), error_bind]
  case pos =>
  rw [readField_pos data (pos + 4 + 8 + 8 + 8 + 8 + 220 + 128) 32 _ hh8]
  simp only [ok_bind]
  by_cases hh9 : pos + 4 + 8 + 8 + 8 + 8 + 220 + 128 + 32 + 32 ≤ data.length
  case neg =>
    rw [readField_neg data (pos + 4 + 8 + 8 + 8 + 8 + 220 + 128 + 32) 32 _ (by omega), error_bind]
  case pos =>
  rw [readField_pos data (pos + 4 + 8 + 8 + 8 + 8 + 220 + 128 + 32) 32 _ hh9]
  simp only [ok_bind]
  by_cases hh10 : pos + 4 + 8 + 8 + 8 + 8 + 220 + 128 + 32 + 32 + 4 ≤ data.length
  case neg =>
    rw [readField_neg data (pos + 4 + 8 + 8 + 8 + 8 + 220 + 128 + 32 + 32) 4 _ (by omega), error_bind]
  case pos =>
  rw [readField_pos data (pos + 4 + 8 + 8 + 8 + 8 + 220 + 128 + 32 + 32) 4 _ hh10]
  simp only [ok_bind]
  by_cases hh11 : pos + 4 + 8 + 8 + 8 + 8 + 220 + 128 + 32 + 32 + 4 + 4 ≤ data.length
  case neg =>
    rw [readField_neg data (pos + 4 + 8 + 8 + 8 + 8 + 220 + 128 + 32 + 32 + 4) 4 _ (by omega), error_bind]
  case pos =>
  rw [readField_pos data (pos + 4 + 8 + 8 + 8 + 8 + 220 + 128 + 32 + 32 + 4) 4 _ hh11]
  simp only [ok_bind]
  by_cases hh12 : pos + 4 + 8 + 8 + 8 + 8 + 220 + 128 + 32 + 32 + 4 + 4 + 24 ≤ data.length
  case neg =>
    rw [readField_neg data (pos + 4 + 8 + 8 + 8 + 8 + 220 + 128 + 32 + 32 + 4 + 4) 24 _ (by omega), error_bind]
  case pos =>
  rw [readField_pos data (pos + 4 + 8 + 8 + 8 + 8 + 220 + 128 + 32 + 32 + 4 + 4) 24 _ hh12]
  simp only [ok_bind]
  by_cases hh13 : pos + 4 + 8 + 8 + 8 + 8 + 220 + 128 + 32 + 32 + 4 + 4 + 24 + 4 ≤ data.length
  case neg =>
    rw [readField_neg data (pos + 4 + 8 + 8 + 8 + 8 + 220 + 128 + 32 + 32 + 4 + 4 + 24) 4 _ (by omega), error_bind]
  case pos =>
  rw [readField_pos data (pos + 4 + 8 + 8 + 8 + 8 + 220 + 128 + 32 + 32 + 4 + 4 + 24) 4 _ hh13]
  simp only [ok_bind]
  by_cases hh14 : pos + 4 + 8 + 8 + 8 + 8 + 220 + 128 + 32 + 32 + 4 + 4 + 24 + 4 + 4 ≤ data.length
  case neg =>
    rw [readField_neg data (pos + 4 + 8 + 8 + 8 + 8 + 220 + 128 + 32 + 32 + 4 + 4 + 24 + 4) 4 leValue (by omega), error_bind]
  case pos =>
  rw [readField_pos data (pos + 4 + 8 + 8 + 8 + 8 + 220 + 128 + 32 + 32 + 4 + 4 + 24 + 4) 4 leValue hh14]
  simp only [ok_bind]
  by_cases hh15 : pos + 4 + 8 + 8 + 8 + 8 + 220 + 128 + 32 + 32 + 4 + 4 + 24 + 4 + 4 + 4 ≤ data.length
  case neg =>
    rw [readField_neg data (pos + 4 + 8 + 8 + 8 + 8 + 220 + 128 + 32 + 32 + 4 + 4 + 24 + 4 + 4) 4 leValue (by omega), error_bind]
  case pos =>
  rw [readField_pos data (pos + 4 + 8 + 8 + 8 + 8 + 220 + 128 + 32 + 32 + 4 + 4 + 24 + 4 + 4) 4 leValue hh15]
  simp only [ok_bind]
  by_cases hh16 : pos + 4 + 8 + 8 + 8 + 8 + 220 + 128 + 32 + 32 + 4 + 4 + 24 + 4 + 4 + 4 + 4 ≤ data.length
  case neg =>
    rw [readField_neg data (pos + 4 + 8 + 8 + 8 + 8 + 220 + 128 + 32 + 32 + 4 + 4 + 24 + 4 + 4 + 4) 4 leValue (by omega), error_bind]
  case pos =>
  rw [readField_pos data (pos + 4 + 8 + 8 + 8 + 8 + 220 + 128 + 32 + 32 + 4 + 4 + 24 + 4 + 4 + 4) 4 leValue hh16]
  simp only [ok_bind]
  by_cases hh17 : pos + 4 + 8 + 8 + 8 + 8 + 220 + 128 + 32 + 32 + 4 + 4 + 24 + 4 + 4 + 4 + 4 + 4 ≤ data.length
  case neg =>
    rw [readField_neg data (pos + 4 + 8 + 8 + 8 + 8 + 220 + 128 + 32 + 32 + 4 + 4 + 24 + 4 + 4 + 4 + 4) 4 leValue (by omega), error_bind]
  case pos =>
  rw [readField_pos data (pos + 4 + 8 + 8 + 8 + 8 + 220 + 128 + 32 + 32 + 4 + 4 + 24 + 4 + 4 + 4 + 4) 4 leValue hh17]
  simp only [ok_bind]
  by_cases hh18 : pos + 4 + 8 + 8 + 8 + 8 + 220 + 128 + 32 + 32 + 4 + 4 + 24 + 4 + 4 + 4 + 4 + 4 + 4 ≤ data.length
  case neg =>
    rw [readField_neg data (pos + 4 + 8 + 8 + 8 + 8 + 220 + 128 + 32 + 32 + 4 + 4 + 24 + 4 + 4 + 4 + 4 + 4) 4 leValue (by omega), error_bind]
  case pos =>
  rw [readField_pos data (pos + 4 + 8 + 8 + 8 + 8 + 220 + 128 + 32 + 32 + 4 + 4 + 24 + 4 + 4 + 4 + 4 + 4) 4 leValue hh18]
  simp only [ok_bind]
  rw [readField_neg data (pos + 4 + 8 + 8 + 8 + 8 + 220 + 128 + 32 + 32 + 4 + 4 + 24 + 4 + 4 + 4 + 4 + 4 + 4) 4 leValue (by omega), error_bind]

/-! ### String-field scanning lemmas -/

theorem read_until_zero_no_zero (xs : List Nat) (h : ∀ b ∈ xs, b ≠ 0) :
    read_until_zero (xs ++ [0]) = xs ++ [0] := by
  induction xs with
  | nil => simp [read_until_zero]
  | cons a l ih =>
      simp only [List.cons_append, read_until_zero]
      rw [if_neg (h a (by simp))]
      exact congrArg (List.cons a) (ih (fun b hb => h b (by simp [hb])))

theorem read_until_zero_first_zero (a rest : List Nat) (h : ∀ x ∈ a, x ≠ 0) :
    read_until_zero (a ++ 0 :: rest) = a ++ [0] := by
  induction a with
  | nil => simp [read_until_zero]
  | cons x l ih =>
      simp only [List.cons_append, read_until_zero]
      rw [if_neg (h x (by simp))]
      exact congrArg (List.cons x) (ih (fun b hb => h b (by simp [hb])))

theorem scan_tpq_string_no_zero (field : List Nat) (size : Nat)
    (hlen : field.length = size) (h : ∀ b ∈ field, b ≠ 0) :
    scan_tpq_string field size = field := by
  subst hlen
  simp only [scan_tpq_string]
  rw [read_until_zero_no_zero field h]
  simp [List.take_left]

theorem scan_tpq_string_first_zero (field : List Nat) (size k : Nat)
    (hlen : field.length = size) (hk : k < size)
    (hnz : ∀ b ∈ field.take k, b ≠ 0) (h0 : field[k]? = some 0) :
    scan_tpq_string field size = field.take k := by
  subst hlen
  obtain ⟨hklen, hget⟩ := List.getElem?_eq_some.mp h0
  have hdecomp : field = field.take k ++ 0 :: field.drop (k + 1) := by
    conv_lhs => rw [← List.take_append_drop k field, List.drop_eq_getElem_cons hklen, hget]
  have hlen_take : (field.take k).length = k := by
    rw [List.length_take]; omega
  have hchars : read_until_zero (field ++ [0]) = field.take k ++ [0] := by
    conv_lhs => rw [hdecomp]
    rw [List.append_assoc]
    exact read_until_zero_first_zero _ _ hnz
  simp only [scan_tpq_string]
  rw [hchars]
  have hlen2 : (field.take k ++ [0]).length = k + 1 := by
    simp [hlen_take]
  rw [hlen2, Nat.add_sub_cancel, Nat.min_eq_left (le_of_lt hk),
    List.take_append_of_le_length (by omega), List.take_take, min_self]

/-! ### Slice independence lemmas -/

theorem slice_append_prefix (data r : List Nat) (cut q c : Nat)
    (hcut : cut ≤ data.length) (hq : q + c ≤ cut) :
    slice (data.take cut ++ r) q c = slice data q c := by
  have hlen : (data.take cut).length = cut := by
    rw [List.length_take]; omega
  unfold slice
  rw [List.drop_append_of_le_length (by omega),
    List.take_append_of_le_length (by rw [List.length_drop, hlen]; omega),
    List.drop_take, List.take_take]
  congr 1
  omega

theorem slice_append_suffix (front : List Nat) (data : List Nat) (m q c : Nat)
    (hfront : front.length = m) (hq : m ≤ q) :
    slice (front ++ data.drop m) q c = slice data q c := by
  unfold slice
  have hsplit : q = front.length + (q - m) := by omega
  rw [hsplit, List.drop_append, List.drop_drop]
  congr 2
  omega

theorem slice_take_eq (data : List Nat) (m q c : Nat) (hq : q + c ≤ m) :
    slice (data.take m) q c = slice data q c := by
  unfold slice
  rw [List.drop_take, List.take_take]
  congr 1
  omega

theorem headerAt_take_508 (data data2 : List Nat) (h : data.take 508 = data2.take 508) :
    headerAt data 0 = headerAt data2 0 := by
  have hs : ∀ q c, q + c ≤ 508 → slice data q c = slice data2 q c := by
    intro q c hqc
    rw [← slice_take_eq data 508 q c hqc, h, slice_take_eq data2 508 q c hqc]
  unfold headerAt
  rw [hs 0 4 (by omega), hs (0 + 4) 8 (by omega), hs (0 + 12) 8 (by omega),
    hs (0 + 20) 8 (by omega), hs (0 + 28) 8 (by omega), hs (0 + 36) 220 (by omega),
    hs (0 + 256) 128 (by omega), hs (0 + 384) 32 (by omega), hs (0 + 416) 32 (by omega),
    hs (0 + 448) 4 (by omega), hs (0 + 452) 4 (by omega), hs (0 + 456) 24 (by omega),
    hs (0 + 480) 4 (by omega), hs (0 + 484) 4 (by omega), hs (0 + 492) 4 (by omega),
    hs (0 + 496) 4 (by omega), hs (0 + 500) 4 (by omega), hs (0 + 504) 4 (by omega)]

/-! ### Claim C8: text-field truncation -/

/-- C8: for every text field of declared capacity read in bounds, a
field value whose first null byte sits at position `k < capacity`
decodes to exactly its first `k` bytes, and a field value with no null
byte within `capacity` bytes decodes to exactly the `capacity` bytes;
bytes after the terminator are discarded in both cases. -/
theorem c8_text_field_truncation (data : List Nat) (pos size k : Nat)
    (hin : pos + size ≤ data.length) :
    (k < size → (∀ b ∈ (slice data pos size).take k, b ≠ 0) →
        (slice data pos size)[k]? = some 0 →
        read_tpq_string data pos size =
          .ok ((slice data pos size).take k, pos + size)) ∧
    ((∀ b ∈ slice data pos size, b ≠ 0) →
        read_tpq_string data pos size = .ok (slice data pos size, pos + size)) := by
  have hlen : (slice data pos size).length = size := by
    unfold slice
    rw [List.length_take, List.length_drop]
    omega
  constructor
  · intro hk hnz h0
    rw [read_tpq_string, readField_pos data pos size _ hin,
      scan_tpq_string_first_zero (slice data pos size) size k hlen hk hnz h0]
  · intro hnz
    rw [read_tpq_string, readField_pos data pos size _ hin,
      scan_tpq_string_no_zero (slice data pos size) size hlen hnz]

theorem c8_witness :
    read_tpq_string [5, 6, 0, 9] 0 4 = .ok ([5, 6], 0 + 4) ∧
    read_tpq_string [7, 8, 9] 0 3 = .ok ([7, 8, 9], 0 + 3) := by
  constructor
  · have h := (c8_text_field_truncation [5, 6, 0, 9] 0 4 2 (by decide)).1
      (by decide) (by decide) (by decide)
    simpa using h
  · have h := (c8_text_field_truncation [7, 8, 9] 0 3 0 (by decide)).2 (by decide)
    simpa using h

/-! ### Claim C9: the reserved 32-bit field -/

/-- C9: the header decoder reads and discards exactly one 32-bit field
immediately after `color_depth` (bytes `[pos + 488, pos + 492)`), and
the next 32-bit value, at bytes `[pos + 492, pos + 496)`, becomes
`long_count`; replacing the reserved field's four bytes by any other
four bytes changes no field of the decoded header and not the consumed
length. -/
theorem c9_reserved_field_skipped (data r : List Nat) (pos : Nat)
    (hr : r.length = 4) (hin : pos + 508 ≤ data.length) :
    read_tpq_header (data.take (pos + 488) ++ r ++ data.drop (pos + 492)) pos =
      .ok (headerAt data pos, pos + 508) ∧
    (headerAt data pos).long_count = leValue (slice data (pos + 492) 4) := by
  refine ⟨?_, rfl⟩
  set data2 := data.take (pos + 488) ++ r ++ data.drop (pos + 492) with hdata2
  have hlen488 : (data.take (pos + 488)).length = pos + 488 := by
    rw [List.length_take]; omega
  have hlen2 : data2.length = data.length := by
    rw [hdata2, List.length_append, List.length_append, hlen488, hr,
      List.length_drop]
    omega
  have hpre : ∀ q c, q + c ≤ pos + 488 → slice data2 q c = slice data q c := by
    intro q c hqc
    rw [hdata2, List.append_assoc]
    exact slice_append_prefix data (r ++ data.drop (pos + 492)) (pos + 488) q c
      (by omega) hqc
  have hsuf : ∀ q c, pos + 492 ≤ q → slice data2 q c = slice data q c := by
    intro q c hq
    rw [hdata2]
    exact slice_append_suffix (data.take (pos + 488) ++ r) data (pos + 492) q c
      (by rw [List.length_append, hlen488, hr]) hq
  have hhd : headerAt data2 pos = headerAt data pos := by
    unfold headerAt
    rw [hpre pos 4 (by omega), hpre (pos + 4) 8 (by omega), hpre (pos + 12) 8 (by omega),
      hpre (pos + 20) 8 (by omega), hpre (pos + 28) 8 (by omega),
      hpre (pos + 36) 220 (by omega), hpre (pos + 256) 128 (by omega),
      hpre (pos + 384) 32 (by omega), hpre (pos + 416) 32 (by omega),
      hpre (pos + 448) 4 (by omega), hpre (pos + 452) 4 (by omega),
      hpre (pos + 456) 24 (by omega), hpre (pos + 480) 4 (by omega),
      hpre (pos + 484) 4 (by omega), hsuf (pos + 492) 4 (by omega),
      hsuf (pos + 496) 4 (by omega), hsuf (pos + 500) 4 (by omega),
      hsuf (pos + 504) 4 (by omega)]
  rw [read_tpq_header_ok data2 pos (by omega), hhd]

theorem c9_witness :
    ([9, 9, 9, 9] : List Nat).length = 4 ∧
    read_tpq_header
        ((List.replicate 508 0).take (0 + 488) ++ [9, 9, 9, 9] ++
          (List.replicate 508 0).drop (0 + 492)) 0 =
      .ok (headerAt (List.replicate 508 0) 0, 0 + 508) :=
  ⟨rfl, (c9_reserved_field_skipped (List.replicate 508 0) [9, 9, 9, 9] 0 rfl
    (by rw [List.length_replicate])).1⟩

/-! ### Claim C10: the header decoder's footprint -/

/-- C10: every successful `read_tpq_header` run consumes exactly 508
bytes and returns the header determined by them; the decode result
depends only on the first 508 bytes of the header region (bytes 508
through 1023 are never interpreted); and the conversion always starts
the tile-directory read at the fixed absolute offset 1024, whatever the
header contains. -/
theorem c10_header_footprint :
    (∀ (data : List Nat) (pos : Nat) (hdr : TpqHeader) (p2 : Nat),
        read_tpq_header data pos = .ok (hdr, p2) →
        p2 = pos + 508 ∧ hdr = headerAt data pos) ∧
    (∀ data data2 : List Nat, data.take 508 = data2.take 508 →
        read_tpq_header data 0 = read_tpq_header data2 0) ∧
    (∀ (data : List Nat) (dec : JpegDecoder),
        runConversion data dec =
          match read_tpq_header data 0 with
          | .error e => .error (.err e)
          | .ok (header, _) =>
              (tileLoop data dec header.lat_count header.long_count
                  header.maplet_width header.maplet_height 1024
                  (RgbaImage.from_pixel
                    (header.long_count * header.maplet_width % U32)
                    (header.lat_count * header.maplet_height % U32)
                    opaqueWhite)).map (fun st => st.2)) := by
  refine ⟨?_, ?_, fun _ _ => rfl⟩
  · intro data pos hdr p2 hok
    by_cases h : pos + 508 ≤ data.length
    · rw [read_tpq_header_ok data pos h] at hok
      have h12 := Except.ok.inj hok
      exact ⟨(congrArg Prod.snd h12).symm, (congrArg Prod.fst h12).symm⟩
    · rw [read_tpq_header_short data pos (by omega)] at hok
      exact absurd hok (by simp)
  · intro data data2 h
    by_cases h1 : 508 ≤ data.length
    · have h2 : 508 ≤ data2.length := by
        have := congrArg List.length h
        rw [List.length_take, List.length_take] at this
        omega
      rw [read_tpq_header_ok data 0 (by omega), read_tpq_header_ok data2 0 (by omega),
        headerAt_take_508 data data2 h]
    · have hfull : data.take 508 = data := List.take_of_length_le (by omega)
      have hlen2 : data2.length < 508 := by
        have := congrArg List.length h
        rw [List.length_take, List.length_take] at this
        omega
      have hfull2 : data2.take 508 = data2 := List.take_of_length_le (by omega)
      rw [hfull, hfull2] at h
      rw [h]

theorem c10_witness :
    read_tpq_header (List.replicate 600 (0 : Nat)) 0 =
      .ok (headerAt (List.replicate 600 0) 0, 0 + 508) ∧
    (0 + 508 = 0 + 508 ∧
      headerAt (List.replicate 600 (0 : Nat)) 0 = headerAt (List.replicate 600 0) 0) := by
  have hok : read_tpq_header (List.replicate 600 (0 : Nat)) 0 =
      .ok (headerAt (List.replicate 600 0) 0, 0 + 508) :=
    read_tpq_header_ok _ 0 (by rw [List.length_replicate]; omega)
  exact ⟨hok, c10_header_footprint.1 (List.replicate 600 0) 0 _ _ hok⟩

/-! ### Claim C4: no cleanup on georeferencing failure -/

/-- C4 counterexample: when writing the spatial reference fails after
the raster has been saved, the error is surfaced but the written file
stays on disk and no removal is attempted — contradicting the claim
that the partially-written output is removed before surfacing the
error. -/
theorem c4_counterexample :
    (mainTail ⟨true, true, false, true⟩).result = .spatialRefFailed ∧
    (mainTail ⟨true, true, false, true⟩).fileExists = true ∧
    (mainTail ⟨true, true, false, true⟩).removalAttempted = false := by
  decide

/-- C4 (amended): once the collage save has succeeded, every later
failure of main's tail (dataset open, spatial-reference write, geo
transform write) is surfaced to the caller with the output file left in
place; no removal of the partially-written file is ever attempted, so no
abort-on-failed-cleanup path exists either. -/
theorem c4_no_cleanup (env : WriterEnv) (hsave : env.save_ok = true) :
    (mainTail env).removalAttempted = false ∧ (mainTail env).fileExists = true := by
  unfold mainTail
  rw [hsave]
  norm_num
  split_ifs <;> exact ⟨rfl, rfl⟩

theorem c4_witness :
    (⟨true, true, false, true⟩ : WriterEnv).save_ok = true ∧
    ((mainTail ⟨true, true, false, true⟩).removalAttempted = false ∧
      (mainTail ⟨true, true, false, true⟩).fileExists = true) :=
  ⟨rfl, c4_no_cleanup ⟨true, true, false, true⟩ rfl⟩

/-! ### Claim C1: truncation errors versus the out-of-range slice -/

set_option maxRecDepth 100000 in
/-- C1 counterexample: on a complete header and directory whose single
recorded maplet offset (2000) lies beyond the end of the 1028-byte
input, the conversion does not fail with the TruncatedInput error
value: slicing `tpq_data[2000..]` panics. -/
theorem c1_counterexample :
    runConversion c1Data (fun _ => none) = .error .panicked ∧
    (.error .panicked : Except Stop Image) ≠ .error (.err .truncatedInput) := by
  constructor
  · rfl
  · intro h
    exact absurd (Except.error.inj h) (by decide)

/-- C1 (amended): a directory read with fewer than four bytes remaining
does fail with the TruncatedInput error value; but a recorded maplet
offset pointing beyond the end of the input buffer makes the tile step
panic (Rust out-of-bounds slice indexing), not return TruncatedInput or
any other error value. -/
theorem c1_truncation_vs_panic :
    (∀ (data : List Nat) (pos : Nat), data.length < pos + 4 →
        read_tpq_u32 data pos = .error .truncatedInput) ∧
    (∀ (data : List Nat) (dec : JpegDecoder) (mw mh i j : Nat) (st : Nat × Image),
        st.1 + 4 ≤ data.length →
        data.length < leValue (slice data st.1 4) →
        tileStep data dec mw mh i j st = .error .panicked) := by
  constructor
  · intro data pos h
    exact readField_neg data pos 4 leValue h
  · intro data dec mw mh i j st h1 h2
    rw [tileStep, read_tpq_u32, readField_pos data st.1 4 leValue h1]
    simp only [liftStop, Except.mapError, ok_bind]
    rw [sliceFrom, if_neg (by omega), error_bind]

theorem c1_witness :
    read_tpq_u32 [1, 2] 5 = .error .truncatedInput ∧
    tileStep [208, 7, 0, 0] (fun _ => none) 1 1 0 0
      (0, RgbaImage.from_pixel 1 1 opaqueWhite) = .error .panicked := by
  constructor
  · exact c1_truncation_vs_panic.1 [1, 2] 5 (by decide)
  · exact c1_truncation_vs_panic.2 [208, 7, 0, 0] (fun _ => none) 1 1 0 0
      (0, RgbaImage.from_pixel 1 1 opaqueWhite) (by decide) (by decide)

/-! ### Claim C2: no tile-size check -/

/-- C2 counterexample: a tile that decodes to 2-by-2 pixels under a
header declaring 1-by-1 maplets does not abort the run with a
TileSizeMismatch error: the loop succeeds and the mismatched tile's
pixels are carried into the collage. -/
theorem c2_counterexample :
    resultPix (tileLoop [0, 0, 0, 0] (fun _ => some c2Tile) 1 1 1 1 0
      (RgbaImage.from_pixel 1 1 opaqueWhite)) 0 0 = some (7, 7, 7, 255) ∧
    isErrResult (tileLoop [0, 0, 0, 0] (fun _ => some c2Tile) 1 1 1 1 0
      (RgbaImage.from_pixel 1 1 opaqueWhite)) = false ∧
    c2Tile.width ≠ 1 ∧ c2Tile.height ≠ 1 := by
  exact ⟨rfl, rfl, by decide, by decide⟩

/-- C2 (amended): the mosaic assembler performs no tile-size check:
whenever the directory read, the slice, and the JPEG decode of a tile
succeed, the loop step succeeds and overlays the decoded tile at its
cell origin, whatever the tile's dimensions; no TileSizeMismatch error
is ever produced, and the run continues with the tile's pixels in the
collage. -/
theorem c2_no_size_check (data : List Nat) (dec : JpegDecoder) (mw mh i j : Nat)
    (st : Nat × Image) (img : Image)
    (h1 : st.1 + 4 ≤ data.length)
    (h2 : leValue (slice data st.1 4) ≤ data.length)
    (h3 : dec (data.drop (leValue (slice data st.1 4))) = some img) :
    tileStep data dec mw mh i j st =
      .ok (st.1 + 4, overlay st.2 img (j * mw % U32) (i * mh % U32)) := by
  rw [tileStep, read_tpq_u32, readField_pos data st.1 4 leValue h1]
  simp only [liftStop, Except.mapError, ok_bind]
  rw [sliceFrom, if_pos h2, ok_bind, decodeJpeg, h3, ok_bind]
  rfl

theorem c2_witness :
    tileStep [0, 0, 0, 0] (fun _ => some c2Tile) 1 1 0 0
        (0, RgbaImage.from_pixel 1 1 opaqueWhite) =
      .ok (0 + 4, overlay (RgbaImage.from_pixel 1 1 opaqueWhite) c2Tile
        (0 * 1 % U32) (0 * 1 % U32)) := by
  exact c2_no_size_check [0, 0, 0, 0] (fun _ => some c2Tile) 1 1 0 0
    (0, RgbaImage.from_pixel 1 1 opaqueWhite) c2Tile (by decide) (by decide) rfl

/-! ### Mosaic assembly lemmas -/

theorem overlay_pix_of_mem (dst src : Image) (x y X Y : Nat)
    (hx : x ≤ X) (hx2 : X < x + src.width) (hy : y ≤ Y) (hy2 : Y < y + src.height) :
    (overlay dst src x y).pix X Y = src.pix (X - x) (Y - y) := by
  show (if x ≤ X ∧ X < x + src.width ∧ y ≤ Y ∧ Y < y + src.height then
    src.pix (X - x) (Y - y) else dst.pix X Y) = src.pix (X - x) (Y - y)
  rw [if_pos ⟨hx, hx2, hy, hy2⟩]

theorem overlay_pix_of_not_mem (dst src : Image) (x y X Y : Nat)
    (h : ¬(x ≤ X ∧ X < x + src.width ∧ y ≤ Y ∧ Y < y + src.height)) :
    (overlay dst src x y).pix X Y = dst.pix X Y := by
  show (if x ≤ X ∧ X < x + src.width ∧ y ≤ Y ∧ Y < y + src.height then
    src.pix (X - x) (Y - y) else dst.pix X Y) = dst.pix X Y
  rw [if_neg h]

theorem foldl_image_inv {α β : Type} (P : Image → β) (l : List α)
    (f : Image → α → Image) (h : ∀ c e, e ∈ l → P (f c e) = P c) (img : Image) :
    P (l.foldl f img) = P img := by
  induction l generalizing img with
  | nil => rfl
  | cons a t ih =>
      rw [List.foldl_cons,
        ih (fun c e he => h c e (List.mem_cons_of_mem a he)),
        h img a (List.mem_cons_self a t)]

theorem range_split (a b : Nat) (h : a < b) :
    List.range b =
      (List.range a ++ [a]) ++ (List.range (b - (a + 1))).map (fun x => a + 1 + x) := by
  have hb : b = (a + 1) + (b - (a + 1)) := by omega
  conv_lhs => rw [hb]
  rw [List.range_add]
  congr 1
  rw [List.range_succ]

theorem assemble_dims (lat_count long_count maplet_width maplet_height : Nat)
    (tiles : Nat → Image) :
    (assemble lat_count long_count maplet_width maplet_height tiles).width =
      long_count * maplet_width % U32 ∧
    (assemble lat_count long_count maplet_width maplet_height tiles).height =
      lat_count * maplet_height % U32 := by
  unfold assemble
  constructor
  · rw [foldl_image_inv Image.width]
    · rfl
    · intro c i _
      rw [foldl_image_inv Image.width]
      intro c2 j _
      rfl
  · rw [foldl_image_inv Image.height]
    · rfl
    · intro c i _
      rw [foldl_image_inv Image.height]
      intro c2 j _
      rfl

theorem assemble_eq_of_no_overflow (latc longc mw mh : Nat) (tiles : Nat → Image)
    (hmw : 0 < mw) (hmh : 0 < mh) (hov1 : longc * mw < U32) (hov2 : latc * mh < U32) :
    assemble latc longc mw mh tiles =
      (List.range latc).foldl
        (fun collage i =>
          (List.range longc).foldl
            (fun c j => overlay c (tiles (i * longc + j)) (j * mw) (i * mh)) collage)
        (RgbaImage.from_pixel (longc * mw) (latc * mh) opaqueWhite) := by
  unfold assemble
  rw [Nat.mod_eq_of_lt hov1, Nat.mod_eq_of_lt hov2]
  apply List.foldl_ext
  intro c i hi
  apply List.foldl_ext
  intro c2 j hj
  have hj2 : j * mw < U32 :=
    lt_trans (mul_lt_mul_of_pos_right (List.mem_range.mp hj) hmw) hov1
  have hi2 : i * mh < U32 :=
    lt_trans (mul_lt_mul_of_pos_right (List.mem_range.mp hi) hmh) hov2
  rw [Nat.mod_eq_of_lt hj2, Nat.mod_eq_of_lt hi2]

theorem inner_row_pix (latc longc mw mh row col : Nat) (tiles : Nat → Image)
    (img : Image) (hrow : row < latc) (hcol : col < longc) (hmw : 0 < mw) (hmh : 0 < mh)
    (hdims : ∀ k, k < latc * longc → (tiles k).width = mw ∧ (tiles k).height = mh) :
    ((List.range longc).foldl
        (fun c j => overlay c (tiles (row * longc + j)) (j * mw) (row * mh)) img).pix
      (col * mw) (row * mh) = (tiles (row * longc + col)).pix 0 0 := by
  rw [range_split col longc hcol, List.foldl_append, List.foldl_append]
  rw [foldl_image_inv (fun im => im.pix (col * mw) (row * mh))]
  · simp only [List.foldl_cons, List.foldl_nil]
    have hk : row * longc + col < latc * longc := by
      have h1 : row * longc + col < (row + 1) * longc := by
        have : (row + 1) * longc = row * longc + longc := by ring
        omega
      have h2 : (row + 1) * longc ≤ latc * longc :=
        Nat.mul_le_mul_right longc (by omega)
      omega
    obtain ⟨hw, hh⟩ := hdims _ hk
    rw [overlay_pix_of_mem _ _ _ _ _ _ (le_refl _) (by rw [hw]; omega)
      (le_refl _) (by rw [hh]; omega), Nat.sub_self, Nat.sub_self]
  · intro c e he
    obtain ⟨x, hx, rfl⟩ := List.mem_map.mp he
    apply overlay_pix_of_not_mem
    intro hcon
    obtain ⟨hc1, -⟩ := hcon
    have h2 : col * mw + mw ≤ (col + 1 + x) * mw := by
      have : (col + 1 + x) * mw = col * mw + mw + x * mw := by ring
      omega
    omega

theorem inner_other_pix (latc longc mw mh row col i : Nat) (tiles : Nat → Image)
    (img : Image) (hi : i < latc) (hne : i ≠ row) (hmh : 0 < mh)
    (hdims : ∀ k, k < latc * longc → (tiles k).width = mw ∧ (tiles k).height = mh) :
    ((List.range longc).foldl
        (fun c j => overlay c (tiles (i * longc + j)) (j * mw) (i * mh)) img).pix
      (col * mw) (row * mh) = img.pix (col * mw) (row * mh) := by
  rw [foldl_image_inv (fun im => im.pix (col * mw) (row * mh))]
  intro c j hj
  apply overlay_pix_of_not_mem
  intro hcon
  obtain ⟨-, -, hy1, hy2⟩ := hcon
  have hk : i * longc + j < latc * longc := by
    have h1 : i * longc + j < (i + 1) * longc := by
      have : (i + 1) * longc = i * longc + longc := by ring
      have := List.mem_range.mp hj
      omega
    have h2 : (i + 1) * longc ≤ latc * longc :=
      Nat.mul_le_mul_right longc (by omega)
    omega
  have hh := (hdims _ hk).2
  rw [hh] at hy2
  rcases Nat.lt_or_ge i row with hlt | hge
  · have h3 : (i + 1) * mh ≤ row * mh := Nat.mul_le_mul_right mh (by omega)
    have h4 : (i + 1) * mh = i * mh + mh := by ring
    omega
  · have hgt : row < i := by omega
    have h3 : (row + 1) * mh ≤ i * mh := Nat.mul_le_mul_right mh (by omega)
    have h4 : (row + 1) * mh = row * mh + mh := by ring
    omega

/-! ### Claim C7: mosaic dimensions and tile placement -/

/-- C7 (amended): for every header whose collage dimension products
`long_count * maplet_width` and `lat_count * maplet_height` fit in a
`u32` (the collage allocation wraps modulo `2 ^ 32` otherwise), and
whose tiles all decode to `maplet_width`-by-`maplet_height` images
(hence of positive dimensions), the assembled mosaic has exactly the
product dimensions, and the pixel at
`(col * maplet_width, row * maplet_height)` is the top-left pixel of
the tile at directory position `row * long_count + col`. -/
theorem c7_mosaic_layout (latc longc mw mh : Nat) (tiles : Nat → Image)
    (row col : Nat) (hrow : row < latc) (hcol : col < longc)
    (hmw : 0 < mw) (hmh : 0 < mh)
    (hov1 : longc * mw < U32) (hov2 : latc * mh < U32)
    (hdims : ∀ k, k < latc * longc → (tiles k).width = mw ∧ (tiles k).height = mh) :
    (assemble latc longc mw mh tiles).width = longc * mw ∧
    (assemble latc longc mw mh tiles).height = latc * mh ∧
    (assemble latc longc mw mh tiles).pix (col * mw) (row * mh) =
      (tiles (row * longc + col)).pix 0 0 := by
  refine ⟨?_, ?_, ?_⟩
  · rw [(assemble_dims latc longc mw mh tiles).1, Nat.mod_eq_of_lt hov1]
  · rw [(assemble_dims latc longc mw mh tiles).2, Nat.mod_eq_of_lt hov2]
  · rw [assemble_eq_of_no_overflow latc longc mw mh tiles hmw hmh hov1 hov2,
      range_split row latc hrow, List.foldl_append, List.foldl_append]
    rw [foldl_image_inv (fun im => im.pix (col * mw) (row * mh))]
    · simp only [List.foldl_cons, List.foldl_nil]
      exact inner_row_pix latc longc mw mh row col tiles _ hrow hcol hmw hmh hdims
    · intro c e he
      obtain ⟨x, hx, rfl⟩ := List.mem_map.mp he
      have hi : row + 1 + x < latc := by
        have := List.mem_range.mp hx
        omega
      exact inner_other_pix latc longc mw mh row col (row + 1 + x) tiles c hi
        (by omega) hmh hdims

/-- C7 counterexample: a header with `long_count = 2 ^ 31` and
`maplet_width = 2` makes the `u32` width product wrap to 0, so the
collage width is not `long_count * maplet_width`. -/
theorem c7_counterexample :
    (assemble 1 (2 ^ 31) 2 1 c7Tiles).width = 0 ∧ 2 ^ 31 * 2 ≠ 0 := by
  constructor
  · rw [(assemble_dims 1 (2 ^ 31) 2 1 c7Tiles).1]
    norm_num [U32]
  · norm_num

theorem c7_witness :
    (assemble 1 2 1 1 c7Tiles).width = 2 * 1 ∧
    (assemble 1 2 1 1 c7Tiles).height = 1 * 1 ∧
    (assemble 1 2 1 1 c7Tiles).pix (1 * 1) (0 * 1) = (c7Tiles (0 * 2 + 1)).pix 0 0 := by
  exact c7_mosaic_layout 1 2 1 1 c7Tiles 0 1 (by decide) (by decide) (by decide)
    (by decide) (by norm_num [U32]) (by norm_num [U32])
    (fun k _ => ⟨rfl, rfl⟩)

/-! ### Claim C5: UTM zone and central meridian -/

/-- C5: for every longitude (any real in the `[-186, 186]` range that
contains all geographic longitudes, wrapped ones included), the zone
computed by the `as u32` cast equals `floor((long + 186) / 6)` as an
integer, and the central meridian in degrees is `-183 + zone * 6`. -/
theorem c5_utm_zone_floor (long : ℝ) (h1 : -186 ≤ long) (h2 : long ≤ 186) :
    ((utm_zone long : ℤ) = ⌊(long + 186) / 6⌋) ∧
    center_meridian_deg long = -183 + (utm_zone long : ℝ) * 6 := by
  constructor
  · unfold utm_zone f64_as_u32
    have hx0 : (0 : ℝ) ≤ (long + 186.0) / 6.0 := by
      apply div_nonneg (by norm_num; linarith) (by norm_num)
    rw [if_neg (not_lt.mpr hx0)]
    have hfl0 : 0 ≤ ⌊(long + 186.0) / 6.0⌋ := Int.floor_nonneg.mpr hx0
    have hub : (long + 186.0) / 6.0 ≤ 62 := by
      rw [div_le_iff (by norm_num : (0:ℝ) < 6.0)]
      norm_num
      linarith
    have hfl62 : ⌊(long + 186.0) / 6.0⌋ ≤ 62 := by
      calc ⌊(long + 186.0) / 6.0⌋ ≤ ⌊(62 : ℝ)⌋ := Int.floor_le_floor hub
        _ = 62 := by norm_num
    have hmin : min (Int.toNat ⌊(long + 186.0) / 6.0⌋) (2 ^ 32 - 1) =
        Int.toNat ⌊(long + 186.0) / 6.0⌋ := by
      apply Nat.min_eq_left
      omega
    rw [hmin, Int.toNat_of_nonneg hfl0]
    norm_num
  · unfold center_meridian_deg
    norm_num

theorem c5_witness :
    ((-186 : ℝ) ≤ -177 ∧ (-177 : ℝ) ≤ 186) ∧ utm_zone (-177) = 1 := by
  refine ⟨⟨by norm_num, by norm_num⟩, ?_⟩
  have h := (c5_utm_zone_floor (-177) (by norm_num) (by norm_num)).1
  have hfl : ⌊((-177 : ℝ) + 186) / 6⌋ = 1 := by
    rw [show ((-177 : ℝ) + 186) / 6 = 3 / 2 by norm_num, Int.floor_eq_iff]
    norm_num
  rw [hfl] at h
  exact_mod_cast h

/-! ### Claim C3: the conformal-latitude auxiliary -/

theorem arsinh_half_lt_artanh_half : Real.arsinh (1 / 2) < artanh (1 / 2) := by
  have hartanh : artanh (1 / 2) = Real.log 3 / 2 := by
    unfold artanh
    norm_num
  have hsq : Real.sqrt (1 + (1 / 2 : ℝ) ^ 2) = Real.sqrt 5 / 2 := by
    have h1 : (1 + (1 / 2 : ℝ) ^ 2) = (Real.sqrt 5 / 2) ^ 2 := by
      conv_rhs => rw [div_pow, Real.sq_sqrt (by norm_num : (0:ℝ) ≤ 5)]
      norm_num
    rw [h1, Real.sqrt_sq (by positivity)]
  have harsinh : Real.arsinh (1 / 2) = Real.log ((1 + Real.sqrt 5) / 2) := by
    rw [Real.arsinh, hsq]
    congr 1
    ring
  rw [hartanh, harsinh, (Real.log_sqrt (by norm_num : (0:ℝ) ≤ 3)).symm]
  apply Real.log_lt_log (by positivity)
  have h5 : Real.sqrt 5 < 2.2361 := by
    calc Real.sqrt 5 < Real.sqrt (2.2361 ^ 2) :=
          Real.sqrt_lt_sqrt (by norm_num) (by norm_num)
      _ = 2.2361 := Real.sqrt_sq (by norm_num)
  have h3b : (1.7320 : ℝ) ≤ Real.sqrt 3 := by
    calc (1.7320 : ℝ) = Real.sqrt (1.7320 ^ 2) := (Real.sqrt_sq (by norm_num)).symm
      _ ≤ Real.sqrt 3 := Real.sqrt_le_sqrt (by norm_num)
  linarith

/-- C3 counterexample: at latitude 30 degrees the projector's
conformal-latitude auxiliary differs from the specification's step-6
formula, whose first inner term is `asinh(sin lat_rad)` instead of the
code's `atanh(sin lat_rad)`. -/
theorem c3_counterexample : t_aux (toRadians 30) ≠ t_aux_spec_asinh (toRadians 30) := by
  have h30 : toRadians 30 = Real.pi / 6 := by
    unfold toRadians
    ring
  rw [h30]
  unfold t_aux t_aux_spec_asinh
  rw [Real.sin_pi_div_six]
  intro heq
  have hinner := Real.sinh_injective heq
  have heq2 : artanh (1 / 2) = Real.arsinh (1 / 2) := by linarith
  exact absurd heq2.symm (ne_of_lt arsinh_half_lt_artanh_half)

/-- C3 (amended): for every input latitude the projector's
conformal-latitude auxiliary equals
`sinh( atanh(sin lat_rad) - (2 sqrt n/(1+n)) atanh((2 sqrt n/(1+n)) sin lat_rad) )`:
the first term inside `sinh` is the inverse hyperbolic TANGENT of
`sin lat_rad`, not the inverse hyperbolic sine. -/
theorem c3_conformal_latitude (lat_rad : ℝ) :
    t_aux lat_rad = t_aux_spec_atanh lat_rad := rfl

/-! ### Numeric bounds for the NAD27 series constants -/

theorem n_bounds : (0.00169 : ℝ) ≤ n ∧ n ≤ 0.0017 := by
  unfold n flattening
  norm_num

theorem sqrt_n_ub : Real.sqrt n ≤ 0.0413 := by
  have h2 := n_bounds.2
  have h3 : (0.0017 : ℝ) ≤ 0.0413 ^ 2 := by norm_num
  calc Real.sqrt n ≤ Real.sqrt (0.0413 ^ 2) := Real.sqrt_le_sqrt (by linarith)
    _ = 0.0413 := Real.sqrt_sq (by norm_num)

theorem kterm_nonneg : 0 ≤ 2 * Real.sqrt n / (1 + n) := by
  apply div_nonneg (by positivity)
  linarith [n_bounds.1]

theorem kterm_ub : 2 * Real.sqrt n / (1 + n) ≤ 0.0826 := by
  have h2 : (1 : ℝ) ≤ 1 + n := by linarith [n_bounds.1]
  have h3 : 2 * Real.sqrt n / (1 + n) ≤ 2 * Real.sqrt n :=
    div_le_self (by positivity) h2
  linarith [sqrt_n_ub]

theorem alpha_bounds :
    0 ≤ alpha_1 ∧ 0 ≤ alpha_2 ∧ 0 ≤ alpha_3 ∧
    alpha_1 + alpha_2 + alpha_3 ≤ 0.001 := by
  have h1 := n_bounds.1
  have h2 := n_bounds.2
  have hn0 : (0 : ℝ) ≤ n := by linarith
  have hn2 : n ^ 2 ≤ 0.0017 * n := by nlinarith
  have hn2n : (0 : ℝ) ≤ n ^ 2 := by positivity
  have hn3 : n ^ 3 ≤ 0.0017 * n ^ 2 := by nlinarith
  have hn3n : (0 : ℝ) ≤ n ^ 3 := by positivity
  unfold alpha_1 alpha_2 alpha_3
  refine ⟨by nlinarith, by nlinarith, by nlinarith, by nlinarith⟩

theorem A_pos : 0 < A := by
  have h1 := n_bounds.1
  have h2 : (0 : ℝ) < 1 + n := by linarith
  have h3 : (0 : ℝ) < 1 + n ^ 2 / 4 + n ^ 4 / 64 := by positivity
  unfold A semimajor_axis
  exact mul_pos (div_pos (by norm_num) h2) h3

/-! ### The projector along the central meridian of zone 1 -/

theorem utm_zone_eq_floor (long : ℝ) (h1 : -186 ≤ long) (h2 : long ≤ 186) :
    (utm_zone long : ℤ) = ⌊(long + 186) / 6⌋ := by
  unfold utm_zone f64_as_u32
  have hx0 : (0 : ℝ) ≤ (long + 186.0) / 6.0 := by
    apply div_nonneg _ (by norm_num)
    norm_num
    linarith
  rw [if_neg (not_lt.mpr hx0)]
  have hfl0 : 0 ≤ ⌊(long + 186.0) / 6.0⌋ := Int.floor_nonneg.mpr hx0
  have hub : (long + 186.0) / 6.0 ≤ 62 := by
    rw [div_le_iff (by norm_num : (0 : ℝ) < 6.0)]
    norm_num
    linarith
  have hfl62 : ⌊(long + 186.0) / 6.0⌋ ≤ 62 := by
    calc ⌊(long + 186.0) / 6.0⌋ ≤ ⌊(62 : ℝ)⌋ := Int.floor_le_floor hub
      _ = 62 := by norm_num
  have hmin : min (Int.toNat ⌊(long + 186.0) / 6.0⌋) (2 ^ 32 - 1) =
      Int.toNat ⌊(long + 186.0) / 6.0⌋ := by
    apply Nat.min_eq_left
    omega
  rw [hmin, Int.toNat_of_nonneg hfl0]
  norm_num

theorem utm_zone_neg177 : utm_zone (-177) = 1 := by
  have h := utm_zone_eq_floor (-177) (by norm_num) (by norm_num)
  have hfl : ⌊((-177 : ℝ) + 186) / 6⌋ = 1 := by
    rw [show ((-177 : ℝ) + 186) / 6 = 3 / 2 by norm_num, Int.floor_eq_iff]
    norm_num
  rw [hfl] at h
  exact_mod_cast h

theorem center_meridian_rad_neg177 :
    center_meridian_rad (-177) = toRadians (-177) := by
  unfold center_meridian_rad
  congr 1
  unfold center_meridian_deg
  rw [utm_zone_neg177]
  norm_num

theorem delta_neg177 : toRadians (-177) - center_meridian_rad (-177) = 0 := by
  rw [center_meridian_rad_neg177]
  ring

theorem eta_prime_neg177 (lat : ℝ) : eta_prime lat (-177) = 0 := by
  unfold eta_prime
  rw [delta_neg177, Real.sin_zero, zero_div]
  unfold artanh
  norm_num

theorem utm_northing_neg177 (lat : ℝ) :
    utm_northing lat (-177) =
      0.9996 * A * (xi_prime lat (-177) +
        (alpha_1 * Real.sin (2 * 1 * xi_prime lat (-177)) +
         alpha_2 * Real.sin (2 * 2 * xi_prime lat (-177)) +
         alpha_3 * Real.sin (2 * 3 * xi_prime lat (-177)))) := by
  unfold utm_northing
  rw [eta_prime_neg177]
  norm_num [Real.cosh_zero]

theorem t_aux_zero : t_aux (toRadians 0) = 0 := by
  have h0 : toRadians 0 = 0 := by
    unfold toRadians
    ring
  rw [h0]
  unfold t_aux artanh
  rw [Real.sin_zero]
  norm_num

theorem utm_northing_zero_neg177 : utm_northing 0 (-177) = 0 := by
  have hxi : xi_prime 0 (-177) = 0 := by
    unfold xi_prime
    rw [t_aux_zero, zero_div, Real.arctan_zero]
  rw [utm_northing_neg177, hxi]
  norm_num [Real.sin_zero]

theorem t_aux_sixty : (1.04 : ℝ) < t_aux (toRadians 60) := by
  have h60 : toRadians 60 = Real.pi / 3 := by
    unfold toRadians
    ring
  rw [h60]
  unfold t_aux
  rw [Real.sin_pi_div_three]
  set k := 2 * Real.sqrt n / (1 + n) with hk
  have hsqrt3_lt : Real.sqrt 3 < 1.7321 := by
    calc Real.sqrt 3 < Real.sqrt (1.7321 ^ 2) :=
          Real.sqrt_lt_sqrt (by norm_num) (by norm_num)
      _ = 1.7321 := Real.sqrt_sq (by norm_num)
  have hsqrt3_ge : (1.73 : ℝ) ≤ Real.sqrt 3 := by
    calc (1.73 : ℝ) = Real.sqrt (1.73 ^ 2) := (Real.sqrt_sq (by norm_num)).symm
      _ ≤ Real.sqrt 3 := Real.sqrt_le_sqrt (by norm_num)
  have hsq3 : Real.sqrt 3 ^ 2 = 3 := Real.sq_sqrt (by norm_num)
  have hart : artanh (Real.sqrt 3 / 2) = Real.log (2 + Real.sqrt 3) := by
    unfold artanh
    have hne : (1 - Real.sqrt 3 / 2) ≠ 0 := by
      intro hc
      linarith [hsqrt3_lt]
    have hdiv : (1 + Real.sqrt 3 / 2) / (1 - Real.sqrt 3 / 2) =
        (2 + Real.sqrt 3) ^ 2 := by
      rw [div_eq_iff hne]
      linear_combination (Real.sqrt 3 / 2 + 1) * hsq3
    rw [hdiv, Real.log_pow]
    push_cast
    ring
  have hlog : (1.05 : ℝ) < Real.log (2 + Real.sqrt 3) := by
    rw [Real.lt_log_iff_exp_lt (by positivity)]
    rw [show (1.05 : ℝ) = 1 + 0.05 by norm_num, Real.exp_add]
    have he1 : Real.exp 1 < 2.7182818286 := Real.exp_one_lt_d9
    have he05 : Real.exp 0.05 ≤ 1 / 0.95 := by
      have h := Real.add_one_le_exp (-0.05)
      rw [Real.exp_neg] at h
      have hp : (0 : ℝ) < Real.exp 0.05 := Real.exp_pos _
      have h2 : (0.95 : ℝ) ≤ (Real.exp 0.05)⁻¹ := by linarith
      have h3 : Real.exp 0.05 * 0.95 ≤ Real.exp 0.05 * (Real.exp 0.05)⁻¹ :=
        mul_le_mul_of_nonneg_left h2 (le_of_lt hp)
      rw [mul_inv_cancel₀ (ne_of_gt hp)] at h3
      linarith
    have hmul : Real.exp 1 * Real.exp 0.05 < 2.7182818286 * (1 / 0.95) := by
      nlinarith [Real.exp_pos 1, Real.exp_pos 0.05]
    have hlast : (2.7182818286 : ℝ) * (1 / 0.95) < 2 + 1.73 := by norm_num
    linarith [hsqrt3_ge]
  have hknn : 0 ≤ k := by
    rw [hk]
    exact kterm_nonneg
  have hkub : k ≤ 0.0826 := by
    rw [hk]
    exact kterm_ub
  have hy_nn : 0 ≤ k * (Real.sqrt 3 / 2) :=
    mul_nonneg hknn (by positivity)
  have hy_ub : k * (Real.sqrt 3 / 2) ≤ 0.0716 := by
    nlinarith [Real.sqrt_nonneg 3]
  have hat_nn : 0 ≤ artanh (k * (Real.sqrt 3 / 2)) := by
    unfold artanh
    apply div_nonneg _ (by norm_num)
    apply Real.log_nonneg
    rw [le_div_iff (by linarith : (0 : ℝ) < 1 - k * (Real.sqrt 3 / 2))]
    linarith
  have hat_ub : artanh (k * (Real.sqrt 3 / 2)) ≤ 0.0772 := by
    set y := k * (Real.sqrt 3 / 2) with hy
    have hy1 : y < 1 := by linarith
    have hyne : (1 : ℝ) - y ≠ 0 := by linarith
    have hpos : (0 : ℝ) < (1 + y) / (1 - y) :=
      div_pos (by linarith) (by linarith)
    have hlog2 : Real.log ((1 + y) / (1 - y)) ≤ (1 + y) / (1 - y) - 1 :=
      Real.log_le_sub_one_of_pos hpos
    have hsub : (1 + y) / (1 - y) - 1 = 2 * y / (1 - y) := by
      field_simp
      ring
    have hfrac : 2 * y / (1 - y) ≤ 2 * 0.0716 / (1 - 0.0716) :=
      div_le_div (by norm_num) (by linarith) (by linarith) (by linarith)
    have hnum : (2 * 0.0716 / (1 - 0.0716) : ℝ) ≤ 0.1543 := by norm_num
    show Real.log ((1 + y) / (1 - y)) / 2 ≤ 0.0772
    linarith
  have hprod : k * artanh (k * (Real.sqrt 3 / 2)) ≤ 0.0826 * 0.0772 :=
    mul_le_mul hkub hat_ub hat_nn (by norm_num)
  have hu : (1.043 : ℝ) <
      artanh (Real.sqrt 3 / 2) - k * artanh (k * (Real.sqrt 3 / 2)) := by
    rw [hart]
    nlinarith [hlog, hprod]
  have hsinh := Real.self_lt_sinh_iff.mpr
    (show (0 : ℝ) < artanh (Real.sqrt 3 / 2) - k * artanh (k * (Real.sqrt 3 / 2)) by
      linarith)
  linarith

theorem xi_prime_sixty : Real.pi / 4 < xi_prime 60 (-177) := by
  unfold xi_prime
  rw [delta_neg177, Real.cos_zero, div_one]
  calc Real.pi / 4 = Real.arctan 1 := Real.arctan_one.symm
    _ < Real.arctan (t_aux (toRadians 60)) :=
        Real.arctan_strictMono (by linarith [t_aux_sixty])

theorem utm_northing_sixty_pos : 0 < utm_northing 60 (-177) := by
  rw [utm_northing_neg177]
  have hxi := xi_prime_sixty
  have hpi : (3.141592 : ℝ) < Real.pi := Real.pi_gt_3141592
  obtain ⟨ha1, ha2, ha3, hsum⟩ := alpha_bounds
  have hs1 := Real.neg_one_le_sin (2 * 1 * xi_prime 60 (-177))
  have hs2 := Real.neg_one_le_sin (2 * 2 * xi_prime 60 (-177))
  have hs3 := Real.neg_one_le_sin (2 * 3 * xi_prime 60 (-177))
  have ht1 : -alpha_1 ≤ alpha_1 * Real.sin (2 * 1 * xi_prime 60 (-177)) := by
    nlinarith
  have ht2 : -alpha_2 ≤ alpha_2 * Real.sin (2 * 2 * xi_prime 60 (-177)) := by
    nlinarith
  have ht3 : -alpha_3 ≤ alpha_3 * Real.sin (2 * 3 * xi_prime 60 (-177)) := by
    nlinarith
  apply mul_pos (mul_pos (by norm_num) A_pos)
  linarith

/-! ### Claim C6: the projected affine transform -/

/-- C6 counterexample: for the degenerate header with
`n_lat = s_lat = 0` and `w_long = e_long = -177`, both corners project
to the same northing and the pixel-height coefficient is 0, not
negative — so the coefficient is not negative for every header. -/
theorem c6_counterexample :
    y_scale 0 (-177) 0 (-177) 1 = 0 ∧ ¬(y_scale 0 (-177) 0 (-177) 1 < 0) := by
  have h : y_scale 0 (-177) 0 (-177) 1 = 0 := by
    unfold y_scale top_northing bottom_northing
    simp
  exact ⟨h, by rw [h]; exact lt_irrefl 0⟩

/-- C6 (amended): for every header whose projected top northing exceeds
its projected bottom northing (as holds for genuine north-up bounding
boxes) and whose collage height is nonzero, the projected (UTM) strategy
yields the six-coefficient transform with both rotation terms 0, origin
`(left_easting + x_scale/2, top_northing + y_scale/2)`, a negative
pixel-height coefficient, and the UTM/NAD27 coordinate reference system
EPSG `26700 + zone`; for a degenerate or inverted bounding box the
pixel-height coefficient can be 0 or positive. -/
theorem c6_geo_transform (n_lat w_long s_lat e_long : ℝ) (width height : Nat)
    (hh : 0 < height)
    (hnb : bottom_northing s_lat e_long < top_northing n_lat w_long) :
    geo_transform n_lat w_long s_lat e_long width height =
      [left_easting n_lat w_long + x_scale n_lat w_long s_lat e_long width / 2,
       x_scale n_lat w_long s_lat e_long width,
       0,
       top_northing n_lat w_long + y_scale n_lat w_long s_lat e_long height / 2,
       0,
       y_scale n_lat w_long s_lat e_long height] ∧
    y_scale n_lat w_long s_lat e_long height < 0 ∧
    epsg_code n_lat w_long = 26700 + utm_zone w_long := by
  refine ⟨?_, ?_, rfl⟩
  · unfold geo_transform
    norm_num
  · unfold y_scale
    have hcast : (0 : ℝ) < (height : ℝ) := by exact_mod_cast hh
    have hpos : 0 < (top_northing n_lat w_long - bottom_northing s_lat e_long) /
        (height : ℝ) := div_pos (by linarith) hcast
    rw [neg_div]
    linarith

theorem c6_witness :
    (0 < 1 ∧ bottom_northing 0 (-177) < top_northing 60 (-177)) ∧
    y_scale 60 (-177) 0 (-177) 1 < 0 ∧
    epsg_code 60 (-177) = 26700 + utm_zone (-177) := by
  have hnb : bottom_northing 0 (-177) < top_northing 60 (-177) := by
    show utm_northing 0 (-177) < utm_northing 60 (-177)
    rw [utm_northing_zero_neg177]
    exact utm_northing_sixty_pos
  have h := c6_geo_transform 60 (-177) 0 (-177) 1 1 (by decide) hnb
  exact ⟨⟨by decide, hnb⟩, h.2.1, h.2.2⟩

end Topodump
